import Mathlib

set_option linter.unusedVariables false

/- Shallow embedding of the libpython discovery core of
`src/iris_utils/_find_libpyton.py`.

Platform facts and build-configuration variables (`sysconfig.get_config_var`)
are modelled by an immutable `Profile`; the filesystem, the dynamic linker
(`dladdr`) and `ctypes.util.find_library` are modelled by an `Env` record of
oracle functions.  Path-string manipulation (`os.path.isabs`, `os.path.join`,
`os.path.dirname`, `os.path.splitext`) follows the `posixpath` flavour of the
standard library.  Generators are modelled as finite lists, yielded in
generation order. -/

namespace FindLibpython

/-- Python truthiness of an optional string (`None` and `""` are falsy). -/
def truthy : Option String → Bool
  | none => false
  | some s => !(s == "")

/-- Embeds `str.startswith`, by code points (as in Python). -/
def strStartsWith (s pre : String) : Bool :=
  pre.data.isPrefixOf s.data

/-- Embeds `str.endswith`, by code points (as in Python). -/
def strEndsWith (s suf : String) : Bool :=
  suf.data.isSuffixOf s.data

/-- Slicing `s[n:]`, by code points (as in Python). -/
def strDrop (s : String) (n : Nat) : String :=
  String.mk (s.data.drop n)

/-- Slicing `s[:-n]` for `0 < n`, by code points (as in Python). -/
def strDropRight (s : String) (n : Nat) : String :=
  String.mk (s.data.take (s.data.length - n))

/-- Embeds `len(s)`, in code points (as in Python). -/
def strLen (s : String) : Nat :=
  s.data.length

/-- String concatenation. -/
def strCat (a b : String) : String :=
  String.mk (a.data ++ b.data)

/-- Embeds `str.rfind` over a character list: index of the last occurrence of `c`,
`-1` when absent (Python returns an `int`). -/
def rfindAux (c : Char) : List Char → Int → Int → Int
  | [], _, best => best
  | x :: xs, i, best => rfindAux c xs (i + 1) (if x == c then i else best)

def rfind (cs : List Char) (c : Char) : Int :=
  rfindAux c cs 0 (-1)

/-- The `while filenameIndex < dotIndex` loop of `genericpath._splitext`,
scanning the characters `p[sepIndex+1 : dotIndex]` (passed as `slice`): as
soon as a non-dot character is seen the path splits at `dotIndex`; if all of
them are dots there is no extension. -/
def splitextLoop (p : List Char) (dotIndex : Nat) : List Char → List Char × List Char
  | [] => (p, [])
  | c :: rest =>
    if c == '.' then splitextLoop p dotIndex rest
    else (p.take dotIndex, p.drop dotIndex)

/-- Embeds `posixpath.splitext`: split off the extension at the last dot, unless the
basename consists only of leading dots up to that dot. -/
def splitext (p : String) : String × String :=
  let cs := p.data
  let sepIndex := rfind cs '/'
  let dotIndex := rfind cs '.'
  if sepIndex < dotIndex then
    let f := (sepIndex + 1).toNat
    let d := dotIndex.toNat
    let r := splitextLoop cs d ((cs.drop f).take (d - f))
    (String.mk r.1, String.mk r.2)
  else (p, "")

/-- Embeds `posixpath.isabs`. -/
def isabs (s : String) : Bool :=
  strStartsWith s "/"

/-- Embeds `posixpath.join` for exactly two components. -/
def joinPath (a : String) (b : String) : String :=
  if strStartsWith b "/" then b
  else if a == "" || strEndsWith a "/" then strCat a b
  else strCat (strCat a "/") b

/-- Embeds `str.rstrip("/")` over a character list. -/
def rstripSlash (cs : List Char) : List Char :=
  (cs.reverse.dropWhile (fun c => c == '/')).reverse

/-- Embeds `posixpath.dirname`. -/
def dirname (p : String) : String :=
  let cs := p.data
  let i := rfind cs '/' + 1
  let head := cs.take i.toNat
  if head ≠ [] && head.any (fun c => !(c == '/')) then String.mk (rstripSlash head)
  else String.mk head

/-- Immutable per-process facts consumed by the locator: the platform flags,
`sysconfig.get_config_var` (`cfg`), `sys.version_info` (`v_major`, `v_minor`),
`sys.executable` and `sys.exec_prefix` (`exec_pre`). -/
structure Profile where
  is_windows : Bool
  is_apple : Bool
  cfg : String → Option String
  v_major : Nat
  v_minor : Nat
  executable : String
  exec_pre : String

/-- The process environment: filesystem oracles (`os.path.exists`,
`os.path.realpath`), the path recorded by the dynamic linker for the
`Py_GetVersion` symbol (`dladdr_fname`, `none` when the `dladdr` call reports
failure), and `ctypes.util.find_library`. -/
structure Env where
  pathExists : String → Bool
  realpath : String → String
  dladdr_fname : Option String
  find_library : String → Option String

/-- The module-level `SHLIB_SUFFIX` constant. -/
def SHLIB_SUFFIX (p : Profile) : String :=
  let s := match p.cfg "SHLIB_SUFFIX" with
    | none => if p.is_windows then ".dll" else ".so"
    | some v => v
  if p.is_apple then ".dylib" else s

/-- Embeds `linked_libpython` / `_linked_libpython_unix`: `None` on Windows or when
`dladdr` fails; the realpath of the reported file, unless it is the running
executable itself (statically linked). -/
def linked_libpython (p : Profile) (env : Env) : Option String :=
  if p.is_windows then none
  else
    match env.dladdr_fname with
    | none => none
    | some fname =>
      let path := env.realpath fname
      if path == env.realpath p.executable then none else some path

/-- Embeds `library_name`: strip a `lib` prefix (non-Windows) then a trailing
`suffix`. -/
def library_name (name : String) (suffix : String) (is_windows : Bool) : String :=
  let n := if !is_windows && strStartsWith name "lib" then strDrop name 3 else name
  if !(suffix == "") && strEndsWith n suffix then strDropRight n (strLen suffix) else n

/-- Embeds `append_truthy`: append `item` only when it is truthy. -/
def append_truthy (l : List String) (item : Option String) : List String :=
  if truthy item then l ++ [item.getD ""] else l

/-- The loop of `uniquifying`: yield `x` unless already seen, then add it to
`seen` either way. -/
def uniquifyingAux {α : Type} [DecidableEq α] (seen : List α) : List α → List α
  | [] => []
  | x :: xs =>
    if x ∈ seen then uniquifyingAux (x :: seen) xs
    else x :: uniquifyingAux (x :: seen) xs

/-- Embeds `uniquifying`: drop duplicates, preserving first-seen order. -/
def uniquifying {α : Type} [DecidableEq α] (items : List α) : List α :=
  uniquifyingAux [] items

/-- Modelled from the spec: "a name already yielded is never yielded again,
but generation order is otherwise preserved" — the canonical first-seen
de-duplication: keep each head (its first occurrence), erase all of its
later duplicates, and recurse.  Stated independently of the accumulator
style of `uniquifying`, to pin down first-seen order. -/
def firstSeenDedup {α : Type} [DecidableEq α] (l : List α) : List α :=
  match l with
  | [] => []
  | x :: xs => x :: firstSeenDedup (xs.filter (fun y => decide (y ≠ x)))
termination_by l.length
decreasing_by
  simp only [List.length_cons]
  exact Nat.lt_succ_of_le (List.length_filter_le _ _)

/-- The four synthesized names of the final loop of `candidate_names`:
`dlprefix + stem + suffix` for each stem. -/
def stem_names (p : Profile) (suffix : String) : List String :=
  let dlpre := if p.is_windows then "" else "lib"
  let VERSION :=
    if truthy (p.cfg "VERSION") then (p.cfg "VERSION").getD ""
    else toString p.v_major ++ "." ++ toString p.v_minor
  let ABIFLAGS :=
    if truthy (p.cfg "ABIFLAGS") then (p.cfg "ABIFLAGS").getD ""
    else if truthy (p.cfg "abiflags") then (p.cfg "abiflags").getD ""
    else ""
  [dlpre ++ "python" ++ VERSION ++ ABIFLAGS ++ suffix,
   dlpre ++ "python" ++ VERSION ++ suffix,
   dlpre ++ "python" ++ toString p.v_major ++ suffix,
   dlpre ++ "python" ++ suffix]

/-- The generator body of `candidate_names` before the `@uniquified`
wrapper: `LDLIBRARY` verbatim if truthy, `splitext(LIBRARY)[0] + suffix` if
`LIBRARY` is truthy, then the four synthesized stem names. -/
def candidate_names_raw (p : Profile) (suffix : String) : List String :=
  (if truthy (p.cfg "LDLIBRARY") then [(p.cfg "LDLIBRARY").getD ""] else [])
  ++ (if truthy (p.cfg "LIBRARY") then [(splitext ((p.cfg "LIBRARY").getD "")).1 ++ suffix] else [])
  ++ stem_names p suffix

/-- Embeds `candidate_names` (with its `@uniquified` decorator). -/
def candidate_names (p : Profile) (suffix : String) : List String :=
  uniquifying (candidate_names_raw p suffix)

/-- The `lib_dirs` list built inside `candidate_paths`: truthy `LIBPL`,
`srcdir`, `LIBDIR`, the executable-relative fallback, truthy
`PYTHONFRAMEWORKPREFIX`, then `sys.exec_prefix` and `exec_prefix/lib`. -/
def lib_dirs (p : Profile) : List String :=
  let l1 := append_truthy [] (p.cfg "LIBPL")
  let l2 := append_truthy l1 (p.cfg "srcdir")
  let l3 := append_truthy l2 (p.cfg "LIBDIR")
  let l4 := l3 ++ [if p.is_windows then dirname p.executable
                   else joinPath (dirname (dirname p.executable)) "lib"]
  let l5 := append_truthy l4 (p.cfg "PYTHONFRAMEWORKPREFIX")
  l5 ++ [p.exec_pre, joinPath p.exec_pre "lib"]

/-- The generator body of `candidate_paths` before the `@uniquified` wrapper:
the linked-libpython result (yielded unconditionally, possibly `None`), every
directory/basename join, then the `ctypes.util.find_library` results. -/
def candidate_paths_raw (p : Profile) (env : Env) (suffix : String) : List (Option String) :=
  [linked_libpython p env]
  ++ (lib_dirs p).flatMap (fun d => (candidate_names p suffix).map (fun b => some (joinPath d b)))
  ++ (candidate_names p suffix).map
      (fun b => env.find_library (library_name b (SHLIB_SUFFIX p) p.is_windows))

/-- Embeds `candidate_paths` (with its `@uniquified` decorator). -/
def candidate_paths (p : Profile) (env : Env) (suffix : String) : List (Option String) :=
  uniquifying (candidate_paths_raw p env suffix)

/-- Embeds `_remove_suffix_apple`: strip a trailing `.dylib` or `.so`, else leave
unchanged. -/
def remove_suffix_apple (path : String) : String :=
  if strEndsWith path ".dylib" then strDropRight path (strLen ".dylib")
  else if strEndsWith path ".so" then strDropRight path (strLen ".so")
  else path

/-- Embeds `normalize_path`: `None` for falsy or non-absolute candidates; the
realpath of `path` or `path + suffix` when one exists; on Apple, one retry on
the suffix-stripped candidate with suffix `.so` and the Apple branch
disabled. -/
def normalize_path (env : Env) (path : Option String) (suffix : String) (is_apple : Bool) : Option String :=
  match path with
  | none => none
  | some p =>
    if p == "" then none
    else if !(isabs p) then none
    else if env.pathExists p then some (env.realpath p)
    else if env.pathExists (p ++ suffix) then some (env.realpath (p ++ suffix))
    else
      match is_apple with
      | true => normalize_path env (some (remove_suffix_apple p)) ".so" false
      | false => none
termination_by is_apple.toNat
decreasing_by decide

/-- Embeds `finding_libpython` (with its `@uniquified` decorator): normalize each
candidate path, yielding the truthy results (`if normalized: yield`). -/
def finding_libpython (p : Profile) (env : Env) : List String :=
  uniquifying ((candidate_paths p env (SHLIB_SUFFIX p)).filterMap
    (fun path =>
      let normalized := normalize_path env path (SHLIB_SUFFIX p) p.is_apple
      if truthy normalized then normalized else none))

/-- Embeds `find_libpython`: the realpath of the first found path, else `None`. -/
def find_libpython (p : Profile) (env : Env) : Option String :=
  match finding_libpython p env with
  | [] => none
  | path :: _ => some (env.realpath path)

/-- Modelled from the spec: a **ResolvedPath** is "an absolute, existing,
symlink-resolved path" — stated against the oracles of the environment, with
symlink-resolvedness as being a fixed point of `realpath`. -/
def ResolvedPath (env : Env) (s : String) : Prop :=
  isabs s = true ∧ env.pathExists s = true ∧ env.realpath s = s

/-- The facts about a real operating-system filesystem that the claims
rely on: `os.path.realpath` of an existing path is absolute, exists, and is
a `realpath` fixed point. -/
structure Env.Lawful (env : Env) : Prop where
  realpath_abs : ∀ q, env.pathExists q = true → isabs (env.realpath q) = true
  realpath_exists : ∀ q, env.pathExists q = true → env.pathExists (env.realpath q) = true
  realpath_idem : ∀ q, env.pathExists q = true → env.realpath (env.realpath q) = env.realpath q

/-! ### The discovery core in an exception monad

Each operation is re-translated into `Except PyErr`, raising where the
Python interpreter would: a string operation (`os.path.isabs`,
`os.path.exists`, `os.path.realpath`, concatenation, `os.path.splitext`,
`str.endswith`) applied to a value that may be `None` raises `TypeError`
unless the value is an actual string, and `_linked_libpython_unix` is
modelled down to the ctypes level — the `libdl`/`dladdr` symbol machinery
can raise `AttributeError`, a successful `dladdr` call can report a NULL
`dli_fname` (whose `.decode()` raises `AttributeError`) or a byte string
that is not valid UTF-8 (whose `.decode()` raises `UnicodeDecodeError`). -/

inductive PyErr : Type where
  | typeError : PyErr
  | attributeError : PyErr
  | unicodeDecodeError : PyErr
deriving DecidableEq

/-- Embeds one step of strict UTF-8 decoding, as `bytes.decode()` performs
it: the code point encoded at the head of the byte list and the remaining
bytes, or `none` for an invalid prefix (bad lead byte, truncated or bad
continuation, overlong form, surrogate, or out-of-range code point). -/
def utf8DecodeOne : List Nat → Option (Nat × List Nat)
  | [] => none
  | b0 :: rest =>
    if b0 < 0x80 then some (b0, rest)
    else if b0 < 0xC2 then none
    else if b0 < 0xE0 then
      match rest with
      | b1 :: r =>
        if 0x80 ≤ b1 ∧ b1 < 0xC0 then some ((b0 - 0xC0) * 0x40 + (b1 - 0x80), r)
        else none
      | [] => none
    else if b0 < 0xF0 then
      match rest with
      | b1 :: b2 :: r =>
        let cp := (b0 - 0xE0) * 0x1000 + (b1 - 0x80) * 0x40 + (b2 - 0x80)
        if (0x80 ≤ b1 ∧ b1 < 0xC0) ∧ (0x80 ≤ b2 ∧ b2 < 0xC0) then
          if cp < 0x800 ∨ (0xD800 ≤ cp ∧ cp < 0xE000) then none
          else some (cp, r)
        else none
      | _ => none
    else if b0 < 0xF5 then
      match rest with
      | b1 :: b2 :: b3 :: r =>
        let cp := (b0 - 0xF0) * 0x40000 + (b1 - 0x80) * 0x1000
          + (b2 - 0x80) * 0x40 + (b3 - 0x80)
        if (0x80 ≤ b1 ∧ b1 < 0xC0) ∧ ((0x80 ≤ b2 ∧ b2 < 0xC0) ∧ (0x80 ≤ b3 ∧ b3 < 0xC0)) then
          if cp < 0x10000 ∨ 0x10FFFF < cp then none
          else some (cp, r)
        else none
      | _ => none
    else none

/-- Runs `utf8DecodeOne` to exhaustion; the fuel is the byte count, which
suffices because each step consumes at least one byte. -/
def utf8DecodeAux : Nat → List Nat → Option (List Char)
  | _, [] => some []
  | 0, _ :: _ => none
  | fuel + 1, b :: bs =>
    match utf8DecodeOne (b :: bs) with
    | none => none
    | some (cp, rest) =>
      match utf8DecodeAux fuel rest with
      | none => none
      | some cs => some (Char.ofNat cp :: cs)

/-- Embeds strict `bytes.decode()` (UTF-8): the decoded string, or `none`
when CPython would raise `UnicodeDecodeError`. -/
def utf8Decode (bs : List Nat) : Option String :=
  match utf8DecodeAux bs.length bs with
  | none => none
  | some cs => some (String.mk cs)

/-- The outcome of the ctypes interaction of `_linked_libpython_unix`:
either the `ctypes.CDLL`/`libdl.dladdr` symbol machinery fails (an
`AttributeError` is raised before the call is made), or `dladdr` returns 0
(its error code), or it succeeds and fills `Dl_info.dli_fname` with a NULL
pointer (seen as `None` by ctypes) or with the raw bytes of a file name. -/
inductive DlResult : Type where
  | noSymbol : DlResult
  | fail : DlResult
  | found : Option (List Nat) → DlResult
deriving DecidableEq

/-- Relates the raw ctypes-level linker outcome to the decoded optional path
that the string-level environment records: the machinery worked, and either
the call failed (no path) or it reported a non-NULL file name that is valid
UTF-8 and decodes to the recorded string. -/
def DecodesTo (dl : DlResult) (fname : Option String) : Prop :=
  (dl = DlResult.fail ∧ fname = none)
  ∨ (∃ bytes s, dl = DlResult.found (some bytes) ∧ utf8Decode bytes = some s ∧ fname = some s)

/-- Use an optional value as a `str`: raises on `None`. -/
def requireStr : Option String → Except PyErr String
  | none => .error .typeError
  | some s => .ok s

/-- Embeds `os.path.isabs(path)` on a possibly-`None` value. -/
def isabsE (path : Option String) : Except PyErr Bool := do
  let s ← requireStr path
  return isabs s

/-- Embeds `os.path.exists(path)` on a possibly-`None` value. -/
def existsE (env : Env) (path : Option String) : Except PyErr Bool := do
  let s ← requireStr path
  return env.pathExists s

/-- Embeds `os.path.realpath(path)` on a possibly-`None` value. -/
def realpathE (env : Env) (path : Option String) : Except PyErr String := do
  let s ← requireStr path
  return env.realpath s

/-- Embeds `path + suffix` on a possibly-`None` value. -/
def concatE (path : Option String) (suffix : String) : Except PyErr String := do
  let s ← requireStr path
  return s ++ suffix

/-- Embeds `os.path.splitext(path)` on a possibly-`None` value. -/
def splitextE (path : Option String) : Except PyErr (String × String) := do
  let s ← requireStr path
  return splitext s

/-- Embeds `_remove_suffix_apple(path)` on a possibly-`None` value (its
`str.endswith` calls raise on `None`). -/
def remove_suffix_appleE (path : Option String) : Except PyErr String := do
  let s ← requireStr path
  return remove_suffix_apple s

/-- Embeds `_linked_libpython_unix` in the exception monad, down to the
ctypes level: a machinery failure raises; line 65
(`os.path.realpath(dlinfo.dli_fname.decode())`) raises `AttributeError` on a
NULL `dli_fname` and `UnicodeDecodeError` on non-UTF-8 bytes. -/
def linked_libpython_unixE (p : Profile) (env : Env) (dl : DlResult) :
    Except PyErr (Option String) :=
  match dl with
  | DlResult.noSymbol => .error .attributeError
  | DlResult.fail => .ok none
  | DlResult.found none => .error .attributeError
  | DlResult.found (some bytes) =>
    match utf8Decode bytes with
    | none => .error .unicodeDecodeError
    | some fname =>
      let path := env.realpath fname
      if path == env.realpath p.executable then .ok none
      else .ok (some path)

/-- Embeds `linked_libpython` in the exception monad. -/
def linked_libpythonE (p : Profile) (env : Env) (dl : DlResult) :
    Except PyErr (Option String) :=
  if p.is_windows then .ok none
  else linked_libpython_unixE p env dl

/-- Embeds `candidate_names` in the exception monad: `splitext` is applied to the
`LIBRARY` config value only behind its truthiness guard. -/
def candidate_namesE (p : Profile) (suffix : String) : Except PyErr (List String) := do
  let l1 ←
    if truthy (p.cfg "LDLIBRARY") then do
      let s ← requireStr (p.cfg "LDLIBRARY")
      pure [s]
    else pure ([] : List String)
  let l2 ←
    if truthy (p.cfg "LIBRARY") then do
      let t ← splitextE (p.cfg "LIBRARY")
      pure [t.1 ++ suffix]
    else pure ([] : List String)
  return uniquifying (l1 ++ l2 ++ stem_names p suffix)

/-- Embeds `candidate_paths` in the exception monad. -/
def candidate_pathsE (p : Profile) (env : Env) (dl : DlResult) (suffix : String) :
    Except PyErr (List (Option String)) := do
  let lp ← linked_libpythonE p env dl
  let basenames ← candidate_namesE p suffix
  return uniquifying ([lp]
    ++ (lib_dirs p).flatMap (fun d => basenames.map (fun b => some (joinPath d b)))
    ++ basenames.map (fun b => env.find_library (library_name b (SHLIB_SUFFIX p) p.is_windows)))

/-- Embeds `normalize_path` in the exception monad: every filesystem/string
operation applied to the candidate would raise on `None`; the `if not path`
guard precedes them all. -/
def normalize_pathE (env : Env) (path : Option String) (suffix : String) (is_apple : Bool) :
    Except PyErr (Option String) :=
  if truthy path = false then .ok none
  else do
    let ab ← isabsE path
    if !ab then return none
    else do
      let e1 ← existsE env path
      if e1 then do
        let r ← realpathE env path
        return some r
      else do
        let ps ← concatE path suffix
        if env.pathExists ps then return some (env.realpath ps)
        else
          match is_apple with
          | true => do
            let stripped ← remove_suffix_appleE path
            normalize_pathE env (some stripped) ".so" false
          | false => return none
termination_by is_apple.toNat
decreasing_by decide

/-- The `for path in candidate_paths()` loop of `finding_libpython` in the
exception monad, collecting the truthy normalization results in order. -/
def finding_loopE (env : Env) (suffix : String) (apple : Bool) :
    List (Option String) → Except PyErr (List String)
  | [] => .ok []
  | path :: rest => do
    let normalized ← normalize_pathE env path suffix apple
    let tail ← finding_loopE env suffix apple rest
    match normalized with
    | some x => if x == "" then return tail else return (x :: tail)
    | none => return tail

/-- Embeds `finding_libpython` in the exception monad. -/
def finding_libpythonE (p : Profile) (env : Env) (dl : DlResult) :
    Except PyErr (List String) := do
  let cps ← candidate_pathsE p env dl (SHLIB_SUFFIX p)
  let results ← finding_loopE env (SHLIB_SUFFIX p) p.is_apple cps
  return uniquifying results

/-- Embeds `find_libpython` in the exception monad. -/
def find_libpythonE (p : Profile) (env : Env) (dl : DlResult) :
    Except PyErr (Option String) := do
  let found ← finding_libpythonE p env dl
  match found with
  | [] => return none
  | path :: _ => return some (env.realpath path)

/-- A concrete non-Windows, non-Apple profile: `LIBRARY = "libpython3.11.a"`,
every other config variable unset, Python 3.11. -/
def profile311 : Profile where
  is_windows := false
  is_apple := false
  cfg := fun k => if k = "LIBRARY" then some "libpython3.11.a" else none
  v_major := 3
  v_minor := 11
  executable := "/usr/bin/python3"
  exec_pre := "/usr"

/-- A concrete non-Windows, non-Apple profile: `LDLIBRARY = "libpython3.so"`,
every other config variable unset, Python 3.11. -/
def profileLd : Profile where
  is_windows := false
  is_apple := false
  cfg := fun k => if k = "LDLIBRARY" then some "libpython3.so" else none
  v_major := 3
  v_minor := 11
  executable := "/usr/bin/python3"
  exec_pre := "/usr"

/-- A concrete environment where only `/usr/lib/libpython3.11.so` exists,
symlink-free, with a failing `dladdr` and a failing `find_library`. -/
def envUsr : Env where
  pathExists := fun s => s == "/usr/lib/libpython3.11.so"
  realpath := id
  dladdr_fname := none
  find_library := fun _ => none

/-- A concrete environment where only `/a/b/libfoo` exists, symlink-free,
with a failing `dladdr` and a failing `find_library`. -/
def envFoo : Env where
  pathExists := fun s => s == "/a/b/libfoo"
  realpath := id
  dladdr_fname := none
  find_library := fun _ => none

/-- A concrete environment where no path exists at all. -/
def envNil : Env where
  pathExists := fun _ => false
  realpath := id
  dladdr_fname := none
  find_library := fun _ => none

/-- A concrete environment whose `realpath` never returns the empty string,
with a failing `dladdr` and a failing `find_library`. -/
def envRp : Env where
  pathExists := fun _ => false
  realpath := fun s => "/r" ++ s
  dladdr_fname := none
  find_library := fun _ => none

example : library_name "libpython3.7m.so" ".so" false = "python3.7m" := by decide
example : library_name "liblib" ".so" false = "lib" := by decide
example : library_name (library_name "liblib" ".so" false) ".so" false = "" := by decide
example : splitext "libpython3.11.a" = ("libpython3.11", ".a") := by decide
example : splitext ".cshrc" = (".cshrc", "") := by decide
example : splitext "/a/.b.c" = ("/a/.b", ".c") := by decide
example : uniquifying [1, 2, 1, 2, 3] = [1, 2, 3] := by decide
example : joinPath "/usr" "lib" = "/usr/lib" := by decide
example : dirname "/usr/bin/python" = "/usr/bin" := by decide
example : dirname "python.exe" = "" := by decide
example : remove_suffix_apple "libpython.dylib" = "libpython" := by decide
example : ("a" ++ "b" : String) = "ab" := by decide
example : strCat "a" "b" = "ab" := by decide

example : SHLIB_SUFFIX profile311 = ".so" := by decide
example : candidate_names profile311 ".so" = ["libpython3.11.so", "libpython3.so", "libpython.so"] := by decide
example : candidate_names profileLd ".so" = ["libpython3.so", "libpython3.11.so", "libpython.so"] := by decide
example : lib_dirs profile311 = ["/usr/lib", "/usr", "/usr/lib"] := by decide
example : (candidate_paths profile311 envUsr ".so").head? = some none := by decide
example : normalize_path envUsr (some "/usr/lib/libpython3.11.so") ".so" false
    = some "/usr/lib/libpython3.11.so" := by
  simp [normalize_path]
  decide

/-! ### Generic lemmas about `uniquifying` -/

theorem mem_uniquifyingAux {α : Type} [DecidableEq α] (xs : List α) :
    ∀ (seen : List α) (x : α), x ∈ uniquifyingAux seen xs ↔ x ∈ xs ∧ x ∉ seen := by
  induction xs with
  | nil => intro seen x; simp [uniquifyingAux]
  | cons y ys ih =>
    intro seen x
    by_cases hy : y ∈ seen
    · rw [show uniquifyingAux seen (y :: ys) = uniquifyingAux (y :: seen) ys from by
        simp [uniquifyingAux, hy]]
      rw [ih]
      constructor
      · rintro ⟨h1, h2⟩
        exact ⟨List.mem_cons_of_mem _ h1, fun hs => h2 (List.mem_cons_of_mem _ hs)⟩
      · rintro ⟨h1, h2⟩
        rcases List.mem_cons.mp h1 with rfl | h1x
        · exact absurd hy h2
        · refine ⟨h1x, fun hm => ?_⟩
          rcases List.mem_cons.mp hm with rfl | hmx
          · exact h2 hy
          · exact h2 hmx
    · rw [show uniquifyingAux seen (y :: ys) = y :: uniquifyingAux (y :: seen) ys from by
        simp [uniquifyingAux, hy]]
      rw [List.mem_cons, ih]
      constructor
      · rintro (rfl | ⟨h1, h2⟩)
        · exact ⟨List.mem_cons_self _ _, hy⟩
        · exact ⟨List.mem_cons_of_mem _ h1, fun hs => h2 (List.mem_cons_of_mem _ hs)⟩
      · rintro ⟨h1, h2⟩
        by_cases hxy : x = y
        · exact Or.inl hxy
        · rcases List.mem_cons.mp h1 with rfl | h1x
          · exact Or.inl rfl
          · refine Or.inr ⟨h1x, fun hm => ?_⟩
            rcases List.mem_cons.mp hm with rfl | hmx
            · exact hxy rfl
            · exact h2 hmx

theorem nodup_uniquifyingAux {α : Type} [DecidableEq α] (xs : List α) :
    ∀ seen : List α, (uniquifyingAux seen xs).Nodup := by
  induction xs with
  | nil => intro seen; simp [uniquifyingAux]
  | cons y ys ih =>
    intro seen
    by_cases hy : y ∈ seen
    · simpa [uniquifyingAux, hy] using ih (y :: seen)
    · simp only [uniquifyingAux, hy, ite_false]
      refine List.nodup_cons.mpr ⟨?_, ih (y :: seen)⟩
      intro hmem
      exact ((mem_uniquifyingAux ys (y :: seen) y).mp hmem).2 (List.mem_cons_self y seen)

theorem sublist_uniquifyingAux {α : Type} [DecidableEq α] (xs : List α) :
    ∀ seen : List α, (uniquifyingAux seen xs).Sublist xs := by
  induction xs with
  | nil => intro seen; simp [uniquifyingAux]
  | cons y ys ih =>
    intro seen
    by_cases hy : y ∈ seen
    · simp only [uniquifyingAux, hy, ite_true]
      exact (ih (y :: seen)).trans (List.sublist_cons_self y ys)
    · simp only [uniquifyingAux, hy, ite_false]
      exact (ih (y :: seen)).cons₂ y

theorem mem_uniquifying {α : Type} [DecidableEq α] {xs : List α} {x : α} :
    x ∈ uniquifying xs ↔ x ∈ xs := by
  simp [uniquifying, mem_uniquifyingAux]

theorem nodup_uniquifying {α : Type} [DecidableEq α] (xs : List α) :
    (uniquifying xs).Nodup :=
  nodup_uniquifyingAux xs []

theorem sublist_uniquifying {α : Type} [DecidableEq α] (xs : List α) :
    (uniquifying xs).Sublist xs :=
  sublist_uniquifyingAux xs []

theorem uniquifying_cons {α : Type} [DecidableEq α] (x : α) (xs : List α) :
    uniquifying (x :: xs) = x :: uniquifyingAux [x] xs := by
  simp [uniquifying, uniquifyingAux]

theorem firstSeenDedup_cons {α : Type} [DecidableEq α] (x : α) (xs : List α) :
    firstSeenDedup (x :: xs)
      = x :: firstSeenDedup (xs.filter (fun y => decide (y ≠ x))) := by
  rw [firstSeenDedup]

theorem uniquifyingAux_eq_firstSeenDedup {α : Type} [DecidableEq α] (xs : List α) :
    ∀ seen : List α,
      uniquifyingAux seen xs
        = firstSeenDedup (xs.filter (fun y => decide (y ∉ seen))) := by
  induction xs with
  | nil =>
    intro seen
    simp only [uniquifyingAux, List.filter_nil]
    rw [firstSeenDedup]
  | cons x xs ih =>
    intro seen
    by_cases hx : x ∈ seen
    · have h1 : uniquifyingAux seen (x :: xs) = uniquifyingAux (x :: seen) xs := by
        simp [uniquifyingAux, hx]
      have h2 : List.filter (fun y => decide (y ∉ seen)) (x :: xs)
          = List.filter (fun y => decide (y ∉ seen)) xs := by
        simp [List.filter_cons, hx]
      have hfil : List.filter (fun y => decide (y ∉ x :: seen)) xs
          = List.filter (fun y => decide (y ∉ seen)) xs := by
        apply List.filter_congr
        intro y hy
        apply decide_eq_decide.mpr
        constructor
        · intro h hm
          exact h (List.mem_cons_of_mem _ hm)
        · intro h hm
          rcases List.mem_cons.mp hm with rfl | hm2
          · exact h hx
          · exact h hm2
      rw [h1, h2, ih (x :: seen), hfil]
    · have h1 : uniquifyingAux seen (x :: xs) = x :: uniquifyingAux (x :: seen) xs := by
        simp [uniquifyingAux, hx]
      have h2 : List.filter (fun y => decide (y ∉ seen)) (x :: xs)
          = x :: List.filter (fun y => decide (y ∉ seen)) xs := by
        simp [List.filter_cons, hx]
      have hfil : List.filter (fun y => decide (y ∉ x :: seen)) xs
          = List.filter (fun y => decide (y ≠ x))
              (List.filter (fun y => decide (y ∉ seen)) xs) := by
        rw [List.filter_filter]
        apply List.filter_congr
        intro y hy
        rw [← Bool.decide_and]
        apply decide_eq_decide.mpr
        constructor
        · intro h
          refine ⟨fun he => h (by rw [he]; exact List.mem_cons_self _ _),
                  fun hm => h (List.mem_cons_of_mem _ hm)⟩
        · rintro ⟨hne, hns⟩ hm
          rcases List.mem_cons.mp hm with rfl | hm2
          · exact hne rfl
          · exact hns hm2
      rw [h1, h2, firstSeenDedup_cons, ih (x :: seen), hfil]

theorem uniquifying_eq_firstSeenDedup {α : Type} [DecidableEq α] (xs : List α) :
    uniquifying xs = firstSeenDedup xs := by
  have h : List.filter (fun y => decide (y ∉ ([] : List α))) xs = xs := by
    apply List.filter_eq_self.mpr
    intro a ha
    simp
  rw [uniquifying, uniquifyingAux_eq_firstSeenDedup xs [], h]

/-! ### String helpers -/

theorem data_eq_nil_iff (s : String) : s.data = [] ↔ s = "" := by
  cases s with
  | mk l =>
    constructor
    · intro h
      simp only [String.data] at h
      subst h
      rfl
    · intro h
      have := congrArg String.data h
      simpa using this

theorem str_append_data (a b : String) : (a ++ b).data = a.data ++ b.data := by
  cases a; cases b; rfl

theorem str_append_ne_empty_right {a b : String} (hb : b ≠ "") : a ++ b ≠ "" := by
  intro h
  have h2 : a.data ++ b.data = [] := by
    rw [← str_append_data, h]
  exact hb ((data_eq_nil_iff b).mp (List.append_eq_nil.mp h2).2)

theorem str_append_ne_empty_left {a b : String} (ha : a ≠ "") : a ++ b ≠ "" := by
  intro h
  have h2 : a.data ++ b.data = [] := by
    rw [← str_append_data, h]
  exact ha ((data_eq_nil_iff a).mp (List.append_eq_nil.mp h2).1)

theorem strCat_ne_empty_right {a b : String} (hb : b ≠ "") : strCat a b ≠ "" := by
  intro h
  have h2 : a.data ++ b.data = [] := by
    have := congrArg String.data h
    simpa [strCat] using this
  exact hb ((data_eq_nil_iff b).mp (List.append_eq_nil.mp h2).2)

theorem joinPath_ne_empty {a b : String} (hb : b ≠ "") : joinPath a b ≠ "" := by
  unfold joinPath
  split
  · exact hb
  · split
    · exact strCat_ne_empty_right hb
    · exact strCat_ne_empty_right hb

/-! ### `splitext` root is non-empty for non-empty input -/

theorem splitextLoop_fst (p : List Char) (d : Nat) :
    ∀ l : List Char,
      (splitextLoop p d l).1 = p ∨ ((splitextLoop p d l).1 = p.take d ∧ l ≠ []) := by
  intro l
  induction l with
  | nil => left; rfl
  | cons c rest ih =>
    by_cases hc : c == '.'
    · rw [show splitextLoop p d (c :: rest) = splitextLoop p d rest from by
        simp [splitextLoop, hc]]
      rcases ih with h | ⟨h, _⟩
      · exact Or.inl h
      · exact Or.inr ⟨h, by simp⟩
    · rw [show splitextLoop p d (c :: rest) = (p.take d, p.drop d) from by
        simp [splitextLoop, hc]]
      exact Or.inr ⟨rfl, by simp⟩

theorem splitext_fst_ne_empty {s : String} (hs : s ≠ "") : (splitext s).1 ≠ "" := by
  by_cases hlt : rfind s.data '/' < rfind s.data '.'
  · simp only [splitext, if_pos hlt]
    rcases splitextLoop_fst s.data (rfind s.data '.').toNat
        ((s.data.drop ((rfind s.data '/') + 1).toNat).take
          ((rfind s.data '.').toNat - ((rfind s.data '/') + 1).toNat)) with h | ⟨h, hl⟩
    · rw [h]
      intro hmk
      apply hs
      have hd : s.data = [] := by
        have := congrArg String.data hmk
        simpa using this
      exact (data_eq_nil_iff s).mp hd
    · rw [h]
      intro hmk
      have htake : s.data.take (rfind s.data '.').toNat = [] := by
        have := congrArg String.data hmk
        simpa using this
      rcases List.take_eq_nil_iff.mp htake with h0 | hnil
      · -- the scanned slice is non-empty, which forces a positive take length
        apply hl
        simp [h0]
      · exact hs ((data_eq_nil_iff s).mp hnil)
  · simp only [splitext, if_neg hlt]
    exact hs

/-! ### Truthiness helpers -/

theorem truthy_getD {o : Option String} (h : truthy o = true) :
    o = some (o.getD "") ∧ o.getD "" ≠ "" := by
  cases o with
  | none => simp [truthy] at h
  | some s => exact ⟨rfl, by simpa [truthy] using h⟩

/-! ### Non-emptiness of generated candidate names -/

theorem mem_stem_names_ne_empty {p : Profile} {suffix x : String}
    (hx : x ∈ stem_names p suffix) : x ≠ "" := by
  have hpy : ∀ a : String, a ++ "python" ≠ "" :=
    fun a => str_append_ne_empty_right (by decide)
  simp only [stem_names, List.mem_cons, List.not_mem_nil, or_false] at hx
  rcases hx with rfl | rfl | rfl | rfl
  · exact str_append_ne_empty_left (str_append_ne_empty_left (str_append_ne_empty_left (hpy _)))
  · exact str_append_ne_empty_left (str_append_ne_empty_left (hpy _))
  · exact str_append_ne_empty_left (str_append_ne_empty_left (hpy _))
  · exact str_append_ne_empty_left (hpy _)

theorem mem_candidate_names_raw_ne_empty {p : Profile} {suffix x : String}
    (hx : x ∈ candidate_names_raw p suffix) : x ≠ "" := by
  simp only [candidate_names_raw, List.mem_append] at hx
  rcases hx with (hx | hx) | hx
  · by_cases ht : truthy (p.cfg "LDLIBRARY") = true
    · rw [if_pos ht] at hx
      simp only [List.mem_singleton] at hx
      subst hx
      exact (truthy_getD ht).2
    · rw [if_neg ht] at hx
      simp at hx
  · by_cases ht : truthy (p.cfg "LIBRARY") = true
    · rw [if_pos ht] at hx
      simp only [List.mem_singleton] at hx
      subst hx
      exact str_append_ne_empty_left (splitext_fst_ne_empty (truthy_getD ht).2)
    · rw [if_neg ht] at hx
      simp at hx
  · exact mem_stem_names_ne_empty hx

theorem mem_candidate_names_ne_empty {p : Profile} {suffix x : String}
    (hx : x ∈ candidate_names p suffix) : x ≠ "" :=
  mem_candidate_names_raw_ne_empty (mem_uniquifying.mp hx)

/-! ### `normalize_path` lemmas -/

theorem normalize_path_none (env : Env) (suffix : String) (apple : Bool) :
    normalize_path env none suffix apple = none := by
  rw [normalize_path.eq_def]

theorem normalize_path_empty (env : Env) (suffix : String) (apple : Bool) :
    normalize_path env (some "") suffix apple = none := by
  rw [normalize_path.eq_def]
  simp

theorem normalize_path_not_abs {pp : String} (env : Env) (suffix : String) (apple : Bool)
    (h : isabs pp = false) :
    normalize_path env (some pp) suffix apple = none := by
  rw [normalize_path.eq_def]
  simp [h]

theorem normalize_path_some_false {env : Env} {pp suffix r} :
    normalize_path env (some pp) suffix false = some r →
    ∃ q, env.pathExists q = true ∧ r = env.realpath q := by
  intro h
  simp only [normalize_path] at h
  split_ifs at h with h1 h2 h3 h4
  · exact ⟨pp, h3, (Option.some.inj h).symm⟩
  · exact ⟨pp ++ suffix, h4, (Option.some.inj h).symm⟩

theorem normalize_path_some {env : Env} {pp suffix apple r} :
    normalize_path env (some pp) suffix apple = some r →
    ∃ q, env.pathExists q = true ∧ r = env.realpath q := by
  cases apple with
  | false => exact normalize_path_some_false
  | true =>
    intro h
    simp only [normalize_path] at h
    split_ifs at h with h1 h2 h3 h4 h5 h6 h7 h8
    · exact ⟨pp, h3, (Option.some.inj h).symm⟩
    · exact ⟨pp ++ suffix, h4, (Option.some.inj h).symm⟩
    · exact ⟨remove_suffix_apple pp, h7, (Option.some.inj h).symm⟩
    · exact ⟨remove_suffix_apple pp ++ ".so", h8, (Option.some.inj h).symm⟩

theorem normalize_path_some_any {env : Env} {path : Option String} {suffix apple r} :
    normalize_path env path suffix apple = some r →
    ∃ q, env.pathExists q = true ∧ r = env.realpath q := by
  cases path with
  | none => intro h; rw [normalize_path_none] at h; cases h
  | some pp => exact normalize_path_some

/-! ### `finding_libpython` elements are realpaths of existing paths -/

theorem mem_finding_libpython {p : Profile} {env : Env} {x : String}
    (hx : x ∈ finding_libpython p env) :
    ∃ q, env.pathExists q = true ∧ x = env.realpath q := by
  have hx2 := mem_uniquifying.mp hx
  rcases List.mem_filterMap.mp hx2 with ⟨path, _, hn⟩
  replace hn :
      (if truthy (normalize_path env path (SHLIB_SUFFIX p) p.is_apple) = true
        then normalize_path env path (SHLIB_SUFFIX p) p.is_apple else none) = some x := hn
  by_cases ht : truthy (normalize_path env path (SHLIB_SUFFIX p) p.is_apple) = true
  · rw [if_pos ht] at hn
    exact normalize_path_some_any hn
  · rw [if_neg ht] at hn
    cases hn

theorem resolved_of_realpath {env : Env} (L : Env.Lawful env) {q x : String}
    (hq : env.pathExists q = true) (hx : x = env.realpath q) : ResolvedPath env x := by
  subst hx
  exact ⟨L.realpath_abs q hq, L.realpath_exists q hq, L.realpath_idem q hq⟩

/-! ### Lawfulness of the concrete witness environments -/

theorem lawful_envNil : Env.Lawful envNil := by
  refine ⟨?_, ?_, ?_⟩ <;> intro q hq <;> simp [envNil] at hq

theorem lawful_envFoo : Env.Lawful envFoo := by
  have hmem : ∀ q : String, envFoo.pathExists q = true → q = "/a/b/libfoo" := by
    intro q hq
    simpa [envFoo] using hq
  refine ⟨?_, ?_, ?_⟩
  · intro q hq; rw [hmem q hq]; decide
  · intro q hq; rw [hmem q hq]; decide
  · intro q hq; rfl

/-! ### The exception-monad translations never raise and agree with the
pure translations -/

theorem requireStr_of_truthy {o : Option String} (h : truthy o = true) :
    requireStr o = .ok (o.getD "") := by
  cases o with
  | none => simp [truthy] at h
  | some s => rfl

theorem linked_libpythonE_ok (p : Profile) (env : Env) (dl : DlResult)
    (h : DecodesTo dl env.dladdr_fname) :
    linked_libpythonE p env dl = .ok (linked_libpython p env) := by
  rcases h with ⟨hdl, hf⟩ | ⟨bytes, str, hdl, hdec, hf⟩
  · subst hdl
    unfold linked_libpythonE linked_libpython linked_libpython_unixE
    simp only [hf]
    split <;> rfl
  · subst hdl
    unfold linked_libpythonE linked_libpython linked_libpython_unixE
    simp only [hf, hdec]
    split
    · rfl
    · by_cases he : (env.realpath str == env.realpath p.executable) = true
      · simp [he]
      · simp [he]

theorem candidate_namesE_ok (p : Profile) (suffix : String) :
    candidate_namesE p suffix = .ok (candidate_names p suffix) := by
  unfold candidate_namesE candidate_names candidate_names_raw splitextE
  by_cases h1 : truthy (p.cfg "LDLIBRARY") = true <;>
    by_cases h2 : truthy (p.cfg "LIBRARY") = true <;>
      simp [h1, h2, requireStr_of_truthy, Bind.bind, Except.bind, pure, Except.pure]

theorem candidate_pathsE_ok (p : Profile) (env : Env) (dl : DlResult) (suffix : String)
    (h : DecodesTo dl env.dladdr_fname) :
    candidate_pathsE p env dl suffix = .ok (candidate_paths p env suffix) := by
  unfold candidate_pathsE candidate_paths candidate_paths_raw
  rw [linked_libpythonE_ok p env dl h, candidate_namesE_ok]
  simp [Bind.bind, Except.bind, pure, Except.pure]

theorem normalize_pathE_ok_false (env : Env) (path : Option String) (suffix : String) :
    normalize_pathE env path suffix false = .ok (normalize_path env path suffix false) := by
  cases path with
  | none => simp [normalize_pathE, normalize_path, truthy]
  | some pp =>
    by_cases h0 : (pp == "") = true
    · have hpe : pp = "" := by simpa using h0
      subst hpe
      simp [normalize_pathE, normalize_path, truthy]
    · by_cases h1 : isabs pp = true
      · by_cases h2 : env.pathExists pp = true
        · simp [normalize_pathE, normalize_path, truthy, h0, h1, h2, requireStr,
            isabsE, existsE, realpathE, Bind.bind, Except.bind, pure, Except.pure]
        · by_cases h3 : env.pathExists (pp ++ suffix) = true
          · simp [normalize_pathE, normalize_path, truthy, h0, h1, h2, h3, requireStr,
              isabsE, existsE, realpathE, concatE, Bind.bind, Except.bind, pure, Except.pure]
          · simp [normalize_pathE, normalize_path, truthy, h0, h1, h2, h3, requireStr,
              isabsE, existsE, realpathE, concatE, Bind.bind, Except.bind, pure, Except.pure]
      · simp [normalize_pathE, normalize_path, truthy, h0, h1, requireStr,
          isabsE, Bind.bind, Except.bind, pure, Except.pure]

theorem normalize_pathE_ok (env : Env) (path : Option String) (suffix : String) (apple : Bool) :
    normalize_pathE env path suffix apple = .ok (normalize_path env path suffix apple) := by
  cases apple with
  | false => exact normalize_pathE_ok_false env path suffix
  | true =>
    cases path with
    | none => simp [normalize_pathE, normalize_path, truthy]
    | some pp =>
      by_cases h0 : (pp == "") = true
      · have hpe : pp = "" := by simpa using h0
        subst hpe
        simp [normalize_pathE, normalize_path, truthy]
      · by_cases h1 : isabs pp = true
        · by_cases h2 : env.pathExists pp = true
          · simp [normalize_pathE, normalize_path, truthy, h0, h1, h2, requireStr,
              isabsE, existsE, realpathE, Bind.bind, Except.bind, pure, Except.pure]
          · by_cases h3 : env.pathExists (pp ++ suffix) = true
            · simp [normalize_pathE, normalize_path, truthy, h0, h1, h2, h3, requireStr,
                isabsE, existsE, realpathE, concatE, Bind.bind, Except.bind, pure, Except.pure]
            · rw [normalize_pathE.eq_def, normalize_path.eq_def]
              simp [truthy, h0, h1, h2, h3, requireStr, isabsE, existsE, realpathE, concatE,
                remove_suffix_appleE, Bind.bind, Except.bind, pure, Except.pure,
                normalize_pathE_ok_false]
        · simp [normalize_pathE, normalize_path, truthy, h0, h1, requireStr,
            isabsE, Bind.bind, Except.bind, pure, Except.pure]

theorem finding_loopE_ok (env : Env) (suffix : String) (apple : Bool) (l : List (Option String)) :
    finding_loopE env suffix apple l
      = .ok (l.filterMap (fun path =>
          let normalized := normalize_path env path suffix apple
          if truthy normalized then normalized else none)) := by
  induction l with
  | nil => rfl
  | cons path rest ih =>
    simp only [finding_loopE, normalize_pathE_ok, ih, Bind.bind, Except.bind,
      List.filterMap_cons]
    cases hn : normalize_path env path suffix apple with
    | none => simp [truthy, pure, Except.pure]
    | some x =>
      by_cases hx : (x == "") = true
      · simp [truthy, hx, pure, Except.pure]
      · simp [truthy, hx, pure, Except.pure]

theorem finding_libpythonE_ok (p : Profile) (env : Env) (dl : DlResult)
    (h : DecodesTo dl env.dladdr_fname) :
    finding_libpythonE p env dl = .ok (finding_libpython p env) := by
  unfold finding_libpythonE finding_libpython
  rw [candidate_pathsE_ok p env dl _ h]
  simp [Bind.bind, Except.bind, finding_loopE_ok, pure, Except.pure]

theorem find_libpythonE_ok (p : Profile) (env : Env) (dl : DlResult)
    (h : DecodesTo dl env.dladdr_fname) :
    find_libpythonE p env dl = .ok (find_libpython p env) := by
  unfold find_libpythonE find_libpython
  rw [finding_libpythonE_ok p env dl h]
  cases finding_libpython p env <;>
    simp [Bind.bind, Except.bind, pure, Except.pure]

/-! ### Claim C2 -/

/-- C2 counterexample: the discovery core can raise.
`_linked_libpython_unix` line 65 calls
`os.path.realpath(dlinfo.dli_fname.decode())`: when the dynamic linker
reports a file name containing the byte `0xFF` (not valid UTF-8) the
`.decode()` raises `UnicodeDecodeError`; when `dli_fname` is a NULL pointer
the `.decode()` raises `AttributeError`; and the raise propagates through
`candidate_paths`/`finding_libpython` up to `find_libpython`.  So the claim
as stated — no exception for every dynamic-linker response — is false. -/
theorem linked_libpython_decode_raises :
    linked_libpythonE profile311 envNil (DlResult.found (some [0xFF]))
      = .error .unicodeDecodeError
    ∧ linked_libpythonE profile311 envNil (DlResult.found none)
      = .error .attributeError
    ∧ find_libpythonE profile311 envNil (DlResult.found (some [0xFF]))
      = .error .unicodeDecodeError := by
  refine ⟨rfl, rfl, rfl⟩

/-- C2 amended: no operation of the discovery core raises, **provided the
ctypes machinery resolves `dladdr` and a successful `dladdr` call reports a
non-NULL, valid-UTF-8 file name** (the decoded string being what the
string-level environment records).  Under that hypothesis each operation,
re-translated into an exception monad that raises where the Python
interpreter would (string and filesystem operations applied to `None`; the
ctypes-level decode of the linker response), returns `.ok` of its pure
value — every failure mode is a `None` result or a shorter sequence, never
an exception. -/
theorem discovery_core_never_raises :
    ∀ (p : Profile) (env : Env) (suffix : String) (path : Option String) (apple : Bool)
      (dl : DlResult),
      DecodesTo dl env.dladdr_fname →
      linked_libpythonE p env dl = .ok (linked_libpython p env)
      ∧ candidate_namesE p suffix = .ok (candidate_names p suffix)
      ∧ candidate_pathsE p env dl suffix = .ok (candidate_paths p env suffix)
      ∧ normalize_pathE env path suffix apple = .ok (normalize_path env path suffix apple)
      ∧ finding_libpythonE p env dl = .ok (finding_libpython p env)
      ∧ find_libpythonE p env dl = .ok (find_libpython p env) :=
  fun p env suffix path apple dl h =>
    ⟨linked_libpythonE_ok p env dl h, candidate_namesE_ok p suffix,
     candidate_pathsE_ok p env dl suffix h, normalize_pathE_ok env path suffix apple,
     finding_libpythonE_ok p env dl h, find_libpythonE_ok p env dl h⟩

/-- Witness for the amended C2: a failed `dladdr` call decodes to the
`None` the environment records, and all six operations return `.ok`. -/
theorem discovery_core_never_raises_witness :
    linked_libpythonE profile311 envNil DlResult.fail
      = .ok (linked_libpython profile311 envNil)
    ∧ candidate_namesE profile311 ".so" = .ok (candidate_names profile311 ".so")
    ∧ candidate_pathsE profile311 envNil DlResult.fail ".so"
      = .ok (candidate_paths profile311 envNil ".so")
    ∧ normalize_pathE envNil (some "/a/b") ".so" true
      = .ok (normalize_path envNil (some "/a/b") ".so" true)
    ∧ finding_libpythonE profile311 envNil DlResult.fail
      = .ok (finding_libpython profile311 envNil)
    ∧ find_libpythonE profile311 envNil DlResult.fail
      = .ok (find_libpython profile311 envNil) :=
  discovery_core_never_raises profile311 envNil ".so" (some "/a/b") true
    DlResult.fail (Or.inl ⟨rfl, rfl⟩)

/-! ### Claim C1 -/

/-- C1: for every platform profile and (lawful) filesystem state,
`find_libpython` returns the first element of `finding_libpython`, and `None`
when that sequence is empty (`.head?` is exactly that). -/
theorem find_libpython_eq_head_finding (p : Profile) (env : Env) (L : Env.Lawful env) :
    find_libpython p env = (finding_libpython p env).head? := by
  cases hf : finding_libpython p env with
  | nil => simp [find_libpython, hf]
  | cons x t =>
    have hx : x ∈ finding_libpython p env := by
      rw [hf]; exact List.mem_cons_self _ _
    rcases mem_finding_libpython hx with ⟨q, hq, hxq⟩
    have hid : env.realpath x = x := by
      rw [hxq]; exact L.realpath_idem q hq
    simp [find_libpython, hf, hid]

/-- Witness for C1 at a concrete profile and environment. -/
theorem find_libpython_eq_head_finding_witness :
    find_libpython profile311 envNil = (finding_libpython profile311 envNil).head? :=
  find_libpython_eq_head_finding profile311 envNil lawful_envNil

/-! ### Claim C4 -/

/-- C4 counterexample: `library_name` is not idempotent — on
`"liblib"` with suffix `".so"`, non-Windows, one application gives `"lib"`
and a second application strips again, giving `""`. -/
theorem library_name_not_idempotent :
    library_name (library_name "liblib" ".so" false) ".so" false
      ≠ library_name "liblib" ".so" false := by
  decide

/-- C4 amended: `library_name` is idempotent on every input whose first
application result no longer starts with `"lib"` (when not Windows) and no
longer ends with the (non-empty) suffix. -/
theorem library_name_idempotent_of_stripped :
    ∀ (name suffix : String) (w : Bool),
      (!w && strStartsWith (library_name name suffix w) "lib") = false →
      (!(suffix == "") && strEndsWith (library_name name suffix w) suffix) = false →
      library_name (library_name name suffix w) suffix w = library_name name suffix w := by
  intro name suffix w h1 h2
  set r := library_name name suffix w with hr
  simp [library_name, h1, h2]

/-- Witness for the amended C4 on a typical library basename. -/
theorem library_name_idempotent_witness :
    library_name (library_name "libpython3.7m.so" ".so" false) ".so" false
      = library_name "libpython3.7m.so" ".so" false :=
  library_name_idempotent_of_stripped "libpython3.7m.so" ".so" false (by decide) (by decide)

/-! ### Claim C6 -/

/-- C6: whenever `normalize_path` returns a result on a lawful filesystem, it
is a `ResolvedPath` (absolute, existing, realpath fixed point), and hence so
is every element yielded by `finding_libpython`. -/
theorem normalize_path_resolved (env : Env) (L : Env.Lawful env) :
    (∀ (path : Option String) (suffix : String) (apple : Bool) (r : String),
      normalize_path env path suffix apple = some r → ResolvedPath env r)
    ∧ (∀ (p : Profile) (x : String), x ∈ finding_libpython p env → ResolvedPath env x) := by
  constructor
  · intro path suffix apple r h
    rcases normalize_path_some_any h with ⟨q, hq, hrq⟩
    exact resolved_of_realpath L hq hrq
  · intro p x hx
    rcases mem_finding_libpython hx with ⟨q, hq, hrq⟩
    exact resolved_of_realpath L hq hrq

/-- Witness for C6: a concrete normalization result is a `ResolvedPath`. -/
theorem normalize_path_resolved_witness : ResolvedPath envFoo "/a/b/libfoo" := by
  apply (normalize_path_resolved envFoo lawful_envFoo).1 (some "/a/b/libfoo") ".so" false
  rw [normalize_path.eq_def]
  simp [envFoo]
  decide

/-! ### Claim C7 -/

/-- C7: for every profile and suffix, `candidate_names` yields no empty
string and no duplicate, and preserves first-seen generation order: it
equals the first-seen de-duplication of the raw generation sequence (each
name appears at its first generation position, later duplicates erased). -/
theorem candidate_names_nonempty_nodup_ordered (p : Profile) (suffix : String) :
    (∀ x ∈ candidate_names p suffix, x ≠ "")
    ∧ (candidate_names p suffix).Nodup
    ∧ candidate_names p suffix = firstSeenDedup (candidate_names_raw p suffix) :=
  ⟨fun _ hx => mem_candidate_names_ne_empty hx,
   nodup_uniquifying _,
   uniquifying_eq_firstSeenDedup _⟩

/-- Witness for C7 at a concrete profile, with the membership hypothesis
discharged on a concrete name. -/
theorem candidate_names_nonempty_nodup_ordered_witness :
    "libpython3.11.so" ≠ ""
    ∧ (candidate_names profile311 ".so").Nodup
    ∧ candidate_names profile311 ".so"
        = firstSeenDedup (candidate_names_raw profile311 ".so") :=
  ⟨(candidate_names_nonempty_nodup_ordered profile311 ".so").1 "libpython3.11.so" (by decide),
   (candidate_names_nonempty_nodup_ordered profile311 ".so").2.1,
   (candidate_names_nonempty_nodup_ordered profile311 ".so").2.2⟩

/-! ### Claim C10 -/

theorem strEndsWith_append (a b : String) : strEndsWith (a ++ b) b = true := by
  unfold strEndsWith
  rw [str_append_data]
  exact List.isSuffixOf_iff_suffix.mpr (List.suffix_append _ _)

/-- C10: every name yielded by `candidate_names suffix` ends with `suffix`,
except possibly the `LDLIBRARY` config value, which is yielded verbatim. -/
theorem candidate_names_end_with_suffix (p : Profile) (suffix : String) :
    ∀ x ∈ candidate_names p suffix,
      strEndsWith x suffix = true ∨ p.cfg "LDLIBRARY" = some x := by
  intro x hx
  have hx2 := mem_uniquifying.mp hx
  simp only [candidate_names_raw, List.mem_append] at hx2
  rcases hx2 with (hx2 | hx2) | hx2
  · by_cases ht : truthy (p.cfg "LDLIBRARY") = true
    · rw [if_pos ht] at hx2
      simp only [List.mem_singleton] at hx2
      subst hx2
      exact Or.inr (truthy_getD ht).1
    · rw [if_neg ht] at hx2
      simp at hx2
  · by_cases ht : truthy (p.cfg "LIBRARY") = true
    · rw [if_pos ht] at hx2
      simp only [List.mem_singleton] at hx2
      subst hx2
      exact Or.inl (strEndsWith_append _ _)
    · rw [if_neg ht] at hx2
      simp at hx2
  · simp only [stem_names, List.mem_cons, List.not_mem_nil, or_false] at hx2
    rcases hx2 with rfl | rfl | rfl | rfl
    · exact Or.inl (strEndsWith_append _ _)
    · exact Or.inl (strEndsWith_append _ _)
    · exact Or.inl (strEndsWith_append _ _)
    · exact Or.inl (strEndsWith_append _ _)

/-- Witness for C10 on a concrete yielded name. -/
theorem candidate_names_end_with_suffix_witness :
    strEndsWith "libpython3.11.so" ".so" = true
    ∨ profile311.cfg "LDLIBRARY" = some "libpython3.11.so" :=
  candidate_names_end_with_suffix profile311 ".so" "libpython3.11.so" (by decide)

/-! ### Claim C9 -/

/-- C9 counterexample: for the natural profile matching the claim
(`LDLIBRARY` unset, `LIBRARY = "libpython3.11.a"`, Python 3.11, no ABI
flags), `candidate_names ".so"` yields only three names — the first element
is followed by two further names, not by the four synthesized stem names
(whose second element duplicates the first yielded name and is therefore
omitted by the de-duplication). -/
theorem candidate_names_not_followed_by_four_stems :
    candidate_names profile311 ".so"
      = ["libpython3.11.so", "libpython3.so", "libpython.so"]
    ∧ stem_names profile311 ".so"
      = ["libpython3.11.so", "libpython3.11.so", "libpython3.so", "libpython.so"] := by
  constructor <;> decide

/-- C9 amended: with `LDLIBRARY` unset and `LIBRARY = "libpython3.11.a"`,
the first element of `candidate_names ".so"` is `"libpython3.11.so"`
(`LIBRARY` with its extension replaced by the suffix), followed by the
synthesized stem names with duplicates of already-yielded names omitted
(first-occurrence order). -/
theorem candidate_names_library_first :
    ∀ p : Profile,
      p.cfg "LDLIBRARY" = none →
      p.cfg "LIBRARY" = some "libpython3.11.a" →
      candidate_names p ".so" = uniquifying ("libpython3.11.so" :: stem_names p ".so")
      ∧ (candidate_names p ".so").head? = some "libpython3.11.so" := by
  intro p h1 h2
  have hsplit : (splitext "libpython3.11.a").1 ++ ".so" = "libpython3.11.so" := by decide
  have hraw : candidate_names_raw p ".so" = "libpython3.11.so" :: stem_names p ".so" := by
    simp [candidate_names_raw, h1, h2, truthy, hsplit]
  constructor
  · rw [candidate_names, hraw]
  · rw [candidate_names, hraw, uniquifying_cons]
    rfl

/-- Witness for the amended C9 at the concrete profile. -/
theorem candidate_names_library_first_witness :
    candidate_names profile311 ".so"
      = uniquifying ("libpython3.11.so" :: stem_names profile311 ".so")
    ∧ (candidate_names profile311 ".so").head? = some "libpython3.11.so" :=
  candidate_names_library_first profile311 (by decide) (by decide)

/-! ### Claim C3 -/

theorem linked_libpython_cases (p : Profile) (env : Env)
    (hrp : ∀ s, env.realpath s ≠ "") :
    linked_libpython p env = none
    ∨ ∃ s, linked_libpython p env = some s ∧ s ≠ "" := by
  unfold linked_libpython
  split
  · exact Or.inl rfl
  · cases env.dladdr_fname with
    | none => exact Or.inl rfl
    | some fname =>
      by_cases he : (env.realpath fname == env.realpath p.executable) = true
      · simp [he]
      · simp only [he, ite_false]
        exact Or.inr ⟨_, rfl, hrp fname⟩

/-- C3 counterexample: `candidate_paths` yields the `linked_libpython`
result unconditionally, so when the `dladdr` lookup fails its very first
element is `None` — not a non-empty, non-null string. -/
theorem candidate_paths_first_element_none :
    (candidate_paths profile311 envUsr ".so").head? = some none := by
  decide

/-- C3 amended: every element yielded by `candidate_paths` is either `None`
(the unconditionally-yielded linker result when the lookup fails, or a
failed `find_library` lookup) or a non-empty string — provided the
realpath and find_library oracles of the environment never produce the empty string.
Directory entries whose config variable is absent are skipped by
`append_truthy`, so every directory/basename join is a non-empty string. -/
theorem candidate_paths_elements (p : Profile) (env : Env) (suffix : String)
    (hrp : ∀ s, env.realpath s ≠ "")
    (hfl : ∀ n s, env.find_library n = some s → s ≠ "") :
    ∀ x ∈ candidate_paths p env suffix, x = none ∨ ∃ s, x = some s ∧ s ≠ "" := by
  intro x hx
  have hx2 := mem_uniquifying.mp hx
  simp only [candidate_paths_raw, List.mem_append, List.mem_cons, List.not_mem_nil,
    or_false] at hx2
  rcases hx2 with (hx2 | hx2) | hx2
  · subst hx2
    exact linked_libpython_cases p env hrp
  · rcases List.mem_flatMap.mp hx2 with ⟨d, _, hj⟩
    rcases List.mem_map.mp hj with ⟨b, hb, rfl⟩
    exact Or.inr ⟨_, rfl, joinPath_ne_empty (mem_candidate_names_ne_empty hb)⟩
  · rcases List.mem_map.mp hx2 with ⟨b, hb, rfl⟩
    rcases hf : env.find_library (library_name b (SHLIB_SUFFIX p) p.is_windows) with _ | s
    · exact Or.inl rfl
    · exact Or.inr ⟨s, rfl, hfl _ s hf⟩

/-- Witness for the amended C3 on a concrete yielded join entry. -/
theorem candidate_paths_elements_witness :
    some "/usr/lib/libpython3.11.so" = none
    ∨ ∃ s, some "/usr/lib/libpython3.11.so" = some s ∧ s ≠ "" :=
  candidate_paths_elements profile311 envRp ".so"
    (fun _ => str_append_ne_empty_left (by decide))
    (fun _ s h => Option.noConfusion h)
    (some "/usr/lib/libpython3.11.so") (by decide)

/-! ### Claim C5 -/

/-- C5: on an Apple profile, when neither the candidate nor candidate+suffix
exists, `normalize_path` strips one trailing `.dylib`/`.so` and retries once
with suffix `.so` and the Apple branch disabled; in particular, when
`/a/b/libfoo.so` and `/a/b/libfoo.so.so` do not exist but `/a/b/libfoo`
does, normalizing `/a/b/libfoo.so` with suffix `.so` returns the canonical
form of `/a/b/libfoo`. -/
theorem normalize_path_apple_retry :
    (∀ (env : Env) (pp suffix : String),
        pp ≠ "" → isabs pp = true →
        env.pathExists pp = false → env.pathExists (pp ++ suffix) = false →
        normalize_path env (some pp) suffix true
          = normalize_path env (some (remove_suffix_apple pp)) ".so" false)
    ∧ (∀ env : Env,
        env.pathExists "/a/b/libfoo.so" = false →
        env.pathExists "/a/b/libfoo.so.so" = false →
        env.pathExists "/a/b/libfoo" = true →
        normalize_path env (some "/a/b/libfoo.so") ".so" true
          = some (env.realpath "/a/b/libfoo")) := by
  constructor
  · intro env pp suffix hne habs h1 h2
    conv_lhs => rw [normalize_path.eq_def]
    simp [hne, habs, h1, h2]
  · intro env h1 h2 h3
    have e4 : "/a/b/libfoo.so" ++ ".so" = "/a/b/libfoo.so.so" := by decide
    have e5 : remove_suffix_apple "/a/b/libfoo.so" = "/a/b/libfoo" := by decide
    rw [normalize_path.eq_def]
    simp only [e4]
    simp [h1, h2, e5]
    rw [normalize_path.eq_def]
    simp [h3]
    decide

/-- Witness for C5 at a concrete environment where only `/a/b/libfoo`
exists. -/
theorem normalize_path_apple_retry_witness :
    normalize_path envFoo (some "/a/b/libfoo.so") ".so" true
      = some (envFoo.realpath "/a/b/libfoo") :=
  normalize_path_apple_retry.2 envFoo (by decide) (by decide) (by decide)

/-! ### Claim C8 -/

/-- C8: `normalize_path` returns `None` on `None`, on the empty string, and
on every non-absolute path, regardless of environment, suffix and platform
flag. -/
theorem normalize_path_rejects_non_absolute :
    ∀ (env : Env) (suffix : String) (apple : Bool),
      normalize_path env none suffix apple = none
      ∧ normalize_path env (some "") suffix apple = none
      ∧ ∀ pp : String, isabs pp = false → normalize_path env (some pp) suffix apple = none :=
  fun env suffix apple =>
    ⟨normalize_path_none env suffix apple, normalize_path_empty env suffix apple,
     fun _ h => normalize_path_not_abs env suffix apple h⟩

/-- Witness for C8 on a concrete relative path. -/
theorem normalize_path_rejects_non_absolute_witness :
    normalize_path envNil none ".so" true = none
    ∧ normalize_path envNil (some "") ".so" true = none
    ∧ normalize_path envNil (some "relative/path") ".so" true = none :=
  ⟨(normalize_path_rejects_non_absolute envNil ".so" true).1,
   (normalize_path_rejects_non_absolute envNil ".so" true).2.1,
   (normalize_path_rejects_non_absolute envNil ".so" true).2.2 "relative/path" (by decide)⟩

end FindLibpython
